import Mathlib

/-
  Verification of the rprt reverse HTTP tunnel against its specification.

  Shallow embedding of the Go sources:
    internal/protocol/message.go   — frame codec
    internal/relay/auth.go         — HMAC token authorization
    internal/relay/handler.go      — relay request handler
    internal/relay/tunnel.go       — relay-side tunnel (read dispatch, streams)
    internal/relay/pool.go         — agent pool (round robin)
    internal/agent/tunnel.go       — agent-side response framing

  Bytes are modelled as Nat (each byte < 256 where it matters), byte
  slices as List Nat, machine integers as Nat/Int with explicit
  reductions mod 2^w where overflow matters.
-/

namespace Rprt

/-! ## Frame codec (internal/protocol/message.go) -/

/-- Message types for the tunnel wire protocol. -/
def TypeHTTPRequest : Nat := 1

def TypeHTTPResponse : Nat := 2

def TypeBodyChunk : Nat := 3

def TypeStreamClose : Nat := 4

def TypePing : Nat := 5

def TypePong : Nat := 6

def TypeAuthChallenge : Nat := 7

def TypeAuthResponse : Nat := 8

/-- Header size: 1 byte type + 4 byte stream id + 4 byte payload length. -/
def HeaderSize : Nat := 9

/-- Maximum payload size per frame (64 KiB), `64 * 1024` in the source. -/
def MaxPayloadSize : Nat := 65536

/-- Frame represents a single wire-protocol frame.  `Type` is a `uint8`
and `StreamID` a `uint32` in the source; here Nat with the range
constraints stated in the theorems that need them. -/
structure Frame where
  type : Nat
  streamID : Nat
  payload : List Nat
deriving DecidableEq, Repr

/-- Big-endian 4-byte encoding, `binary.BigEndian.PutUint32`.  For
`n < 2^32` this is the exact byte image; for larger n it coincides with
the encoding of `n % 2^32`, matching the uint32 truncation in Go. -/
def be32 (n : Nat) : List Nat :=
  [n / 16777216 % 256, n / 65536 % 256, n / 256 % 256, n % 256]

/-- Big-endian 4-byte decoding, `binary.BigEndian.Uint32`. -/
def be32_read (a b c d : Nat) : Nat :=
  ((a * 256 + b) * 256 + c) * 256 + d

theorem be32_read_be32 (n : Nat) (h : n < 4294967296) :
    be32_read (n / 16777216 % 256) (n / 65536 % 256) (n / 256 % 256) (n % 256) = n := by
  unfold be32_read
  omega

/-- encode_header writes the frame header: type byte, big-endian stream
id, big-endian payload length. -/
def _encode_header (f : Frame) : List Nat :=
  f.type :: be32 f.streamID ++ be32 f.payload.length

/-- decode_header reads a frame header from the start of a buffer:
fails on fewer than 9 bytes, or on a declared payload length above
`MaxPayloadSize`. -/
def _decode_header (buf : List Nat) : Option (Nat × Nat × Nat) :=
  if buf.length < HeaderSize then none
  else
    let msgType := buf.getD 0 0
    let streamID := be32_read (buf.getD 1 0) (buf.getD 2 0) (buf.getD 3 0) (buf.getD 4 0)
    let payloadLen := be32_read (buf.getD 5 0) (buf.getD 6 0) (buf.getD 7 0) (buf.getD 8 0)
    if payloadLen > MaxPayloadSize then none
    else some (msgType, streamID, payloadLen)

/-- MarshalFrame serialises a frame into bytes (header + payload);
rejects payloads above `MaxPayloadSize`. -/
def MarshalFrame (f : Frame) : Option (List Nat) :=
  if f.payload.length > MaxPayloadSize then none
  else some (_encode_header f ++ f.payload)

/-- UnmarshalFrame deserialises bytes into a frame: decodes the header,
requires at least `HeaderSize + payloadLen` bytes, and copies exactly
`payloadLen` bytes after the header (trailing bytes ignored). -/
def UnmarshalFrame (data : List Nat) : Option Frame :=
  match _decode_header data with
  | none => none
  | some (msgType, streamID, payloadLen) =>
    if data.length < HeaderSize + payloadLen then none
    else some ⟨msgType, streamID, (data.drop HeaderSize).take payloadLen⟩

/-- Declared payload length of a buffer: big-endian read of bytes 5..8. -/
def declaredLen (data : List Nat) : Nat :=
  be32_read (data.getD 5 0) (data.getD 6 0) (data.getD 7 0) (data.getD 8 0)

/-- Declared stream id of a buffer: big-endian read of bytes 1..4. -/
def declaredSid (data : List Nat) : Nat :=
  be32_read (data.getD 1 0) (data.getD 2 0) (data.getD 3 0) (data.getD 4 0)

theorem marshal_eq (f : Frame) (hp : f.payload.length ≤ MaxPayloadSize) :
    MarshalFrame f = some (_encode_header f ++ f.payload) := by
  unfold MarshalFrame
  rw [if_neg]
  omega

theorem encode_header_cons (f : Frame) :
    _encode_header f ++ f.payload =
      f.type :: f.streamID / 16777216 % 256 :: f.streamID / 65536 % 256 ::
      f.streamID / 256 % 256 :: f.streamID % 256 ::
      f.payload.length / 16777216 % 256 :: f.payload.length / 65536 % 256 ::
      f.payload.length / 256 % 256 :: f.payload.length % 256 :: f.payload := by
  simp [_encode_header, be32]

theorem decode_header_cons (t a b c d e g h i : Nat) (rest : List Nat)
    (hle : be32_read e g h i ≤ MaxPayloadSize) :
    _decode_header (t :: a :: b :: c :: d :: e :: g :: h :: i :: rest) =
      some (t, be32_read a b c d, be32_read e g h i) := by
  unfold _decode_header
  simp only [List.getD_cons_zero, List.getD_cons_succ, List.length_cons, HeaderSize,
    MaxPayloadSize] at *
  rw [if_neg (by omega), if_neg (by omega)]

theorem unmarshal_cons (t a b c d e g h i : Nat) (rest : List Nat)
    (hle : be32_read e g h i ≤ MaxPayloadSize)
    (hlen : be32_read e g h i ≤ rest.length) :
    UnmarshalFrame (t :: a :: b :: c :: d :: e :: g :: h :: i :: rest) =
      some ⟨t, be32_read a b c d, rest.take (be32_read e g h i)⟩ := by
  unfold UnmarshalFrame
  simp only [decode_header_cons t a b c d e g h i rest hle, List.length_cons,
    List.drop_succ_cons, List.drop_zero, HeaderSize]
  rw [if_neg (by omega)]

/-- C5: Frame codec round-trip.  For a frame with type in 1..8, a
32-bit stream id and a payload of at most 65,536 bytes, MarshalFrame
succeeds and UnmarshalFrame inverts it, recovering the same type,
stream id and payload. -/
theorem frame_codec_round_trip (f : Frame)
    (_ht1 : 1 ≤ f.type) (_ht2 : f.type ≤ 8)
    (hs : f.streamID < 4294967296)
    (hp : f.payload.length ≤ 65536) :
    ∃ bytes, MarshalFrame f = some bytes ∧ UnmarshalFrame bytes = some f := by
  refine ⟨_, marshal_eq f (by simpa [MaxPayloadSize] using hp), ?_⟩
  rw [encode_header_cons f]
  have hplt : f.payload.length < 4294967296 := by omega
  have hsid := be32_read_be32 f.streamID hs
  have hpl := be32_read_be32 f.payload.length hplt
  rw [unmarshal_cons _ _ _ _ _ _ _ _ _ _ (by rw [hpl]; simpa [MaxPayloadSize] using hp)
    (by rw [hpl])]
  rw [hsid, hpl, List.take_length]

/-- Witness for C5 at a concrete frame. -/
theorem frame_codec_round_trip_witness :
    ∃ bytes, MarshalFrame ⟨1, 42, [104, 105]⟩ = some bytes ∧
      UnmarshalFrame bytes = some ⟨1, 42, [104, 105]⟩ :=
  frame_codec_round_trip ⟨1, 42, [104, 105]⟩ (by decide) (by decide) (by decide) (by decide)

/-- C6: Frame codec size limits.  MarshalFrame fails exactly on
payloads above 65,536 bytes; UnmarshalFrame fails on every buffer
shorter than 9 bytes, on every buffer whose declared payload length
exceeds 65,536, and on every buffer shorter than 9 + payload_len. -/
theorem frame_codec_size_limits :
    (∀ f : Frame, MarshalFrame f = none ↔ 65536 < f.payload.length) ∧
    (∀ data : List Nat, data.length < 9 → UnmarshalFrame data = none) ∧
    (∀ data : List Nat, 65536 < declaredLen data → UnmarshalFrame data = none) ∧
    (∀ data : List Nat, data.length < 9 + declaredLen data → UnmarshalFrame data = none) := by
  have hshort : ∀ data : List Nat, data.length < 9 → UnmarshalFrame data = none := by
    intro data h
    unfold UnmarshalFrame _decode_header
    rw [if_pos (by simpa [HeaderSize] using h)]
  refine ⟨?_, hshort, ?_, ?_⟩
  · intro f
    unfold MarshalFrame
    constructor
    · intro h
      by_contra hc
      rw [if_neg (by simp [MaxPayloadSize]; omega)] at h
      exact Option.some_ne_none _ h
    · intro h
      rw [if_pos (by simpa [MaxPayloadSize] using h)]
  · intro data h
    by_cases hl : data.length < 9
    · exact hshort data hl
    · unfold UnmarshalFrame _decode_header
      rw [if_neg (by simpa [HeaderSize] using hl)]
      rw [if_pos (by simpa [MaxPayloadSize, declaredLen] using h)]
  · intro data h
    by_cases hl : data.length < 9
    · exact hshort data hl
    · by_cases hm : 65536 < declaredLen data
      · unfold UnmarshalFrame _decode_header
        rw [if_neg (by simpa [HeaderSize] using hl)]
        rw [if_pos (by simpa [MaxPayloadSize, declaredLen] using hm)]
      · unfold UnmarshalFrame _decode_header
        rw [if_neg (by simpa [HeaderSize] using hl)]
        rw [if_neg (by simpa [MaxPayloadSize, declaredLen] using hm)]
        simp only
        rw [if_pos (by simpa [HeaderSize, declaredLen] using h)]

/-- Witness for C6 at concrete buffers: a 2-byte buffer, a buffer
declaring a 4 GiB payload, and a 9-byte buffer declaring 5 payload
bytes it does not carry. -/
theorem frame_codec_size_limits_witness :
    MarshalFrame ⟨1, 0, List.replicate 65537 0⟩ = none ∧
    UnmarshalFrame [1, 2] = none ∧
    UnmarshalFrame [1, 0, 0, 0, 1, 255, 255, 255, 255] = none ∧
    UnmarshalFrame [1, 0, 0, 0, 1, 0, 0, 0, 5] = none := by
  refine ⟨?_, ?_, ?_, ?_⟩
  · exact (frame_codec_size_limits.1 ⟨1, 0, List.replicate 65537 0⟩).mpr
      (by rw [List.length_replicate]; omega)
  · exact frame_codec_size_limits.2.1 [1, 2] (by decide)
  · exact frame_codec_size_limits.2.2.1 [1, 0, 0, 0, 1, 255, 255, 255, 255] (by decide)
  · exact frame_codec_size_limits.2.2.2 [1, 0, 0, 0, 1, 0, 0, 0, 5] (by decide)

/-- C10: UnmarshalFrame tolerates trailing bytes.  For every buffer
strictly longer than 9 + payload_len whose declared payload length is
within bounds, UnmarshalFrame succeeds, returning exactly the
payload_len bytes after the header and ignoring the trailing bytes. -/
theorem unmarshal_tolerates_trailing (data : List Nat)
    (hmax : declaredLen data ≤ 65536)
    (hlen : 9 + declaredLen data < data.length) :
    UnmarshalFrame data =
      some ⟨data.getD 0 0, declaredSid data, (data.drop 9).take (declaredLen data)⟩ := by
  unfold UnmarshalFrame _decode_header
  unfold declaredLen at hmax hlen
  simp only [HeaderSize, MaxPayloadSize]
  rw [if_neg (by omega)]
  rw [if_neg (by omega)]
  simp only
  rw [if_neg (by omega)]
  rfl

/-- Witness for C10: a 12-byte buffer declaring a single payload byte;
the three trailing bytes are ignored. -/
theorem unmarshal_tolerates_trailing_witness :
    UnmarshalFrame [1, 0, 0, 0, 2, 0, 0, 0, 1, 7, 8, 9] = some ⟨1, 2, [7]⟩ := by
  have h := unmarshal_tolerates_trailing [1, 0, 0, 0, 2, 0, 0, 0, 1, 7, 8, 9]
    (by decide) (by decide)
  simpa using h

/-! ## Payload fragmentation (internal/relay/handler.go `_chunk_payload`,
internal/agent/tunnel.go `_response_frames`) -/

/-- Loop body shared by `_chunk_payload` and `_response_frames`: the Go
for-loop stepping by `MaxPayloadSize`, emitting the first-type frame at
offset 0 and BODY_CHUNK frames afterwards. -/
def _chunk_loop (streamID firstType : Nat) : List Nat → Bool → List Frame
  | [], _ => []
  | d :: ds, isFirst =>
    let t := if isFirst then firstType else TypeBodyChunk
    ⟨t, streamID, (d :: ds).take MaxPayloadSize⟩ ::
      _chunk_loop streamID firstType ((d :: ds).drop MaxPayloadSize) false
termination_by l _ => l.length
decreasing_by
  simp only [List.length_drop, List.length_cons, MaxPayloadSize]
  omega

/-- chunk_payload splits a payload into frames respecting the maximum
payload size: one frame of the first type if it fits, otherwise the
chunking loop. -/
def _chunk_payload (streamID : Nat) (firstType : Nat) (payload : List Nat) : List Frame :=
  if payload.length ≤ MaxPayloadSize then [⟨firstType, streamID, payload⟩]
  else _chunk_loop streamID firstType payload true

/-- response_frames splits agent response data into appropriately sized
frames, first frame HTTP_RESPONSE, continuation frames BODY_CHUNK. -/
def _response_frames (streamID : Nat) (data : List Nat) : List Frame :=
  if data.length ≤ MaxPayloadSize then [⟨TypeHTTPResponse, streamID, data⟩]
  else _chunk_loop streamID TypeHTTPResponse data true

theorem response_frames_eq_chunk (streamID : Nat) (data : List Nat) :
    _response_frames streamID data = _chunk_payload streamID TypeHTTPResponse data := rfl

theorem chunk_loop_props (sid ft : Nat) (n : Nat) :
    ∀ (l : List Nat) (isFirst : Bool), l.length ≤ n →
      ((_chunk_loop sid ft l isFirst).map Frame.payload).flatten = l ∧
      (∀ f ∈ _chunk_loop sid ft l isFirst, f.payload.length ≤ MaxPayloadSize ∧
        f.streamID = sid) ∧
      (isFirst = false → ∀ f ∈ _chunk_loop sid ft l isFirst, f.type = TypeBodyChunk) ∧
      (_chunk_loop sid ft l isFirst).length = (l.length + 65535) / 65536 := by
  induction n with
  | zero =>
    intro l isFirst h
    have hl : l = [] := List.length_eq_zero.mp (Nat.le_zero.mp h)
    subst hl
    simp [_chunk_loop]
  | succ n ih =>
    intro l isFirst h
    match l with
    | [] => simp [_chunk_loop]
    | d :: ds =>
      rw [_chunk_loop]
      have hdroplen : ((d :: ds).drop MaxPayloadSize).length ≤ n := by
        simp only [List.length_drop, List.length_cons, MaxPayloadSize]
        simp only [List.length_cons] at h
        omega
      obtain ⟨ihj, ihm, iht, ihc⟩ := ih ((d :: ds).drop MaxPayloadSize) false hdroplen
      refine ⟨?_, ?_, ?_, ?_⟩
      · simp only [List.map_cons, List.flatten_cons, ihj]
        exact List.take_append_drop MaxPayloadSize (d :: ds)
      · intro f hf
        rcases List.mem_cons.mp hf with hf | hf
        · subst hf
          constructor
          · exact List.length_take_le MaxPayloadSize (d :: ds)
          · rfl
        · exact ihm f hf
      · intro hFalse f hf
        rcases List.mem_cons.mp hf with hf | hf
        · subst hf
          simp [hFalse]
        · exact iht rfl f hf
      · simp only [List.length_cons, List.length_drop, MaxPayloadSize] at ihc ⊢
        omega

/-- C7: Payload fragmentation.  For every stream id, first type and
payload, the relay chunker produces a non-empty frame list whose
payloads are each at most 65,536 bytes, whose first frame has the given
first type, whose continuation frames are BODY_CHUNK, which all carry
the given stream id, whose payload concatenation is the original
payload, and which has at least 4 frames for a 200,000-byte payload;
the agent response framer is the same function applied with first type
HTTP_RESPONSE. -/
theorem chunk_payload_fragmentation (sid ft : Nat) (payload : List Nat) :
    _chunk_payload sid ft payload ≠ [] ∧
    (∀ f ∈ _chunk_payload sid ft payload, f.payload.length ≤ 65536) ∧
    ((_chunk_payload sid ft payload).head?.map Frame.type = some ft) ∧
    (∀ f ∈ (_chunk_payload sid ft payload).tail, f.type = TypeBodyChunk) ∧
    (∀ f ∈ _chunk_payload sid ft payload, f.streamID = sid) ∧
    ((_chunk_payload sid ft payload).map Frame.payload).flatten = payload ∧
    (payload.length = 200000 → 4 ≤ (_chunk_payload sid ft payload).length) ∧
    _response_frames sid payload = _chunk_payload sid TypeHTTPResponse payload := by
  unfold _chunk_payload
  by_cases hle : payload.length ≤ MaxPayloadSize
  · rw [if_pos hle]
    refine ⟨by simp, ?_, by simp, by simp, ?_, by simp, ?_, response_frames_eq_chunk sid payload⟩
    · intro f hf
      rcases List.mem_singleton.mp hf with rfl
      simpa [MaxPayloadSize] using hle
    · intro f hf
      rcases List.mem_singleton.mp hf with rfl
      rfl
    · intro hlen
      rw [hlen] at hle
      simp [MaxPayloadSize] at hle
  · rw [if_neg hle]
    simp only [MaxPayloadSize, not_le] at hle
    obtain ⟨hj, hm, _, hc⟩ :=
      chunk_loop_props sid ft payload.length payload true (Nat.le_refl _)
    have hcons : ∃ d ds, payload = d :: ds := by
      match payload, hle with
      | d :: ds, _ => exact ⟨d, ds, rfl⟩
    obtain ⟨d, ds, rfl⟩ := hcons
    rw [_chunk_loop] at hj hm hc ⊢
    obtain ⟨_, hmtail, httail, _⟩ :=
      chunk_loop_props sid ft ((d :: ds).drop MaxPayloadSize).length
        ((d :: ds).drop MaxPayloadSize) false (Nat.le_refl _)
    refine ⟨by simp, ?_, by simp, ?_, ?_, hj, ?_, response_frames_eq_chunk sid (d :: ds)⟩
    · intro f hf
      simpa [MaxPayloadSize] using (hm f hf).1
    · intro f hf
      exact httail rfl f (by simpa using hf)
    · intro f hf
      exact (hm f hf).2
    · intro hlen
      have : (_chunk_loop sid ft ((d :: ds).drop MaxPayloadSize) false).length
          = (((d :: ds).drop MaxPayloadSize).length + 65535) / 65536 :=
        (chunk_loop_props sid ft ((d :: ds).drop MaxPayloadSize).length
          ((d :: ds).drop MaxPayloadSize) false (Nat.le_refl _)).2.2.2
      simp only [List.length_cons, this, List.length_drop, MaxPayloadSize] at *
      omega

/-- Witness for C7: a 200,000-byte payload is split into at least 4
frames on both the request and the response path. -/
theorem chunk_payload_fragmentation_witness :
    4 ≤ (_chunk_payload 7 TypeHTTPRequest (List.replicate 200000 0)).length ∧
    4 ≤ (_response_frames 7 (List.replicate 200000 0)).length := by
  have h1 := (chunk_payload_fragmentation 7 TypeHTTPRequest (List.replicate 200000 0)).2.2.2.2.2.2.1
    (by rw [List.length_replicate])
  have h2 := chunk_payload_fragmentation 7 TypeHTTPResponse (List.replicate 200000 0)
  refine ⟨h1, ?_⟩
  rw [h2.2.2.2.2.2.2.2]
  exact h2.2.2.2.2.2.2.1 (by rw [List.length_replicate])

/-! ## Agent pool (internal/relay/pool.go) -/

/-- Modulus of the `atomic.Uint64` rotation counter, `2^64`. -/
def U64 : Nat := 18446744073709551616

/-- Pool manages a set of agent tunnels plus a monotonic (wrapping)
64-bit counter used for round-robin selection.  Links are abstract. -/
structure Pool (α : Type) where
  tunnels : List α
  counter : Nat

/-- Get returns the next tunnel using round-robin selection: fails on
an empty pool, otherwise bumps the counter (uint64, wrapping) and
indexes the list at `counter mod len`. -/
def Pool.Get {α : Type} (p : Pool α) : Option α × Pool α :=
  if h : p.tunnels.length = 0 then (none, p)
  else
    let c := (p.counter + 1) % U64
    (some (p.tunnels.get ⟨c % p.tunnels.length,
        Nat.mod_lt _ (Nat.pos_of_ne_zero h)⟩),
      { p with counter := c })

/-- A sequence of k consecutive calls to Get, collecting the returned
links (stopping early only on the empty-pool error). -/
def Pool.GetMany {α : Type} : Nat → Pool α → List α × Pool α
  | 0, p => ([], p)
  | k + 1, p =>
    match p.Get with
    | (none, p1) => ([], p1)
    | (some a, p1) =>
      let r := Pool.GetMany k p1
      (a :: r.1, r.2)

theorem add_mod_witness (n c j : Nat) (hn : 0 < n) (hj : j < n) :
    ∃ i, i < n ∧ (c + i) % n = j := by
  refine ⟨(j + n - c % n) % n, Nat.mod_lt _ hn, ?_⟩
  have hr : c % n < n := Nat.mod_lt _ hn
  conv_lhs => rw [Nat.add_mod]
  rw [Nat.mod_mod_of_dvd _ (dvd_refl n), ← Nat.add_mod]
  have hdm := Nat.div_add_mod c n
  have hms : n * (c / n + 1) = n * (c / n) + n := Nat.mul_succ n (c / n)
  have heq : c + (j + n - c % n) = j + n * (c / n + 1) := by omega
  rw [heq, Nat.add_mul_mod_self_left, Nat.mod_eq_of_lt hj]

theorem add_mod_inj (n c i1 i2 : Nat) (h1 : i1 < n) (h2 : i2 < n)
    (h : (c + i1) % n = (c + i2) % n) : i1 = i2 := by
  have hm : i1 % n = i2 % n := Nat.ModEq.add_left_cancel' c h
  rwa [Nat.mod_eq_of_lt h1, Nat.mod_eq_of_lt h2] at hm

theorem count_range_map_mod (n c j : Nat) (hn : 0 < n) (hj : j < n) :
    ((List.range n).map (fun i => (c + i) % n)).count j = 1 := by
  have hnd : ((List.range n).map (fun i => (c + i) % n)).Nodup := by
    refine List.Nodup.map_on ?_ (List.nodup_range n)
    intro x hx y hy hxy
    exact add_mod_inj n c x y (List.mem_range.mp hx) (List.mem_range.mp hy) hxy
  have hmem : j ∈ (List.range n).map (fun i => (c + i) % n) := by
    obtain ⟨i, hi, hfi⟩ := add_mod_witness n c j hn hj
    exact List.mem_map.mpr ⟨i, List.mem_range.mpr hi, hfi⟩
  exact List.count_eq_one_of_mem hnd hmem

theorem count_range_map_mod_mul (n c j : Nat) (hn : 0 < n) (hj : j < n) (K : Nat) :
    ((List.range (n * K)).map (fun i => (c + i) % n)).count j = K := by
  induction K with
  | zero => simp
  | succ K ih =>
    have hsplit : n * (K + 1) = n * K + n := by ring
    rw [hsplit, List.range_add, List.map_append, List.count_append, ih]
    have hblock : ((List.range n).map (fun x => n * K + x)).map (fun i => (c + i) % n)
        = (List.range n).map (fun x => (c + x) % n) := by
      rw [List.map_map]
      refine List.map_congr_left ?_
      intro x _
      show (c + (n * K + x)) % n = (c + x) % n
      have harr : c + (n * K + x) = c + x + K * n := by ring
      rw [harr, Nat.add_mul_mod_self_right]
    rw [hblock, count_range_map_mod n c j hn hj]

theorem getD_eq_get_of_lt {α : Type} (l : List α) (d : α) (i : Nat) (h : i < l.length) :
    l.getD i d = l.get ⟨i, h⟩ := by
  simp [List.getD_eq_getElem?_getD, List.getElem?_eq_getElem h]

theorem getMany_eq {α : Type} (d : α) :
    ∀ (k : Nat) (p : Pool α), 0 < p.tunnels.length →
      (Pool.GetMany k p).1 = (List.range k).map
        (fun i => p.tunnels.getD (((p.counter + 1 + i) % U64) % p.tunnels.length) d) ∧
      (Pool.GetMany k p).2.tunnels = p.tunnels := by
  intro k
  induction k with
  | zero => intro p _; exact ⟨rfl, rfl⟩
  | succ k ih =>
    intro p hp
    unfold Pool.GetMany Pool.Get
    rw [dif_neg (by omega)]
    simp only
    obtain ⟨ih1, ih2⟩ := ih ⟨p.tunnels, (p.counter + 1) % U64⟩ hp
    dsimp only at ih1 ih2
    refine ⟨?_, ih2⟩
    rw [ih1, List.range_succ_eq_map, List.map_cons, List.map_map]
    congr 1
    · rw [getD_eq_get_of_lt p.tunnels d _ (Nat.mod_lt _ hp)]
    · refine List.map_congr_left ?_
      intro i _
      show p.tunnels.getD (((p.counter + 1) % U64 + 1 + i) % U64 % p.tunnels.length) d
        = p.tunnels.getD ((p.counter + 1 + (i + 1)) % U64 % p.tunnels.length) d
      have hmm : ((p.counter + 1) % U64 + 1 + i) % U64
          = (p.counter + 1 + (i + 1)) % U64 := by
        conv_lhs => rw [Nat.add_assoc, Nat.mod_add_mod]
        ring_nf
      rw [hmm]

theorem count_map_getD {α : Type} [DecidableEq α] (tunnels : List α) (d : α)
    (hnd : tunnels.Nodup) (j : Nat) (hj : j < tunnels.length) :
    ∀ l : List Nat, (∀ i ∈ l, i < tunnels.length) →
      (l.map (fun i => tunnels.getD i d)).count (tunnels.getD j d) = l.count j := by
  intro l
  induction l with
  | nil => intro _; rfl
  | cons i l ih =>
    intro hl
    have hi : i < tunnels.length := hl i (List.mem_cons_self i l)
    have hrest : ∀ x ∈ l, x < tunnels.length := fun x hx => hl x (List.mem_cons_of_mem i hx)
    have ih2 := ih hrest
    simp only [List.getD_eq_getElem?_getD] at ih2
    by_cases hij : i = j
    · subst hij
      simp [List.map_cons, List.count_cons, ih2]
    · have hji : ¬ j = i := fun h => hij h.symm
      have hne2 : tunnels.getD j d ≠ tunnels.getD i d := by
        rw [getD_eq_get_of_lt tunnels d i hi, getD_eq_get_of_lt tunnels d j hj]
        intro hc
        have hfe : (⟨j, hj⟩ : Fin tunnels.length) = ⟨i, hi⟩ :=
          (List.Nodup.get_inj_iff hnd).mp hc
        exact hij (congrArg Fin.val hfe).symm
      simp only [List.getD_eq_getElem?_getD] at hne2
      simp [List.map_cons, List.count_cons, ih2, hne2, Ne.symm hne2, hij, hji]

/-- C8: Pool round-robin fairness, amended for counter wraparound.
For a pool of N ≥ 1 distinct links whose 64-bit rotation counter does
not wrap during the window, N * K consecutive calls to Get all succeed
and return each link exactly K times; Get on an empty pool fails. -/
theorem pool_round_robin {α : Type} [DecidableEq α] (p : Pool α) (K : Nat)
    (hne : 0 < p.tunnels.length)
    (hnodup : p.tunnels.Nodup)
    (hnowrap : p.counter + p.tunnels.length * K < U64) :
    (Pool.GetMany (p.tunnels.length * K) p).1.length = p.tunnels.length * K ∧
    (∀ (j : Nat) (hj : j < p.tunnels.length),
      (Pool.GetMany (p.tunnels.length * K) p).1.count (p.tunnels.get ⟨j, hj⟩) = K) ∧
    (∀ q : Pool α, q.tunnels = [] → q.Get = (none, q)) := by
  have hd : α := p.tunnels.get ⟨0, hne⟩
  obtain ⟨hres, _⟩ := getMany_eq hd (p.tunnels.length * K) p hne
  refine ⟨by rw [hres]; simp, ?_, ?_⟩
  · intro j hj
    rw [hres]
    have hcollapse : (List.range (p.tunnels.length * K)).map
        (fun i => p.tunnels.getD (((p.counter + 1 + i) % U64) % p.tunnels.length) hd)
        = ((List.range (p.tunnels.length * K)).map
            (fun i => (p.counter + 1 + i) % p.tunnels.length)).map
          (fun i => p.tunnels.getD i hd) := by
      rw [List.map_map]
      refine List.map_congr_left ?_
      intro i hi
      have hilt : i < p.tunnels.length * K := List.mem_range.mp hi
      show p.tunnels.getD (((p.counter + 1 + i) % U64) % p.tunnels.length) hd
        = p.tunnels.getD ((p.counter + 1 + i) % p.tunnels.length) hd
      rw [Nat.mod_eq_of_lt (show p.counter + 1 + i < U64 by
        unfold U64 at hnowrap ⊢; omega)]
    rw [hcollapse]
    rw [← getD_eq_get_of_lt p.tunnels hd j hj]
    rw [count_map_getD p.tunnels hd hnodup j hj _ ?_]
    · exact count_range_map_mod_mul p.tunnels.length (p.counter + 1) j hne hj K
    · intro x hx
      obtain ⟨i, _, rfl⟩ := List.mem_map.mp hx
      exact Nat.mod_lt _ hne
  · intro q hq
    unfold Pool.Get
    rw [dif_pos (by rw [hq]; rfl)]

/-- Witness for C8: a fresh two-link pool, four calls, each link twice. -/
theorem pool_round_robin_witness :
    (Pool.GetMany 4 (⟨[5, 6], 0⟩ : Pool Nat)).1.count 5 = 2 ∧
    (Pool.GetMany 4 (⟨[5, 6], 0⟩ : Pool Nat)).1.count 6 = 2 := by
  have h := pool_round_robin (⟨[5, 6], 0⟩ : Pool Nat) 2 (by decide) (by decide) (by decide)
  exact ⟨h.2.1 0 (by decide), h.2.1 1 (by decide)⟩

/-- Counterexample for C8 as stated: with three links and the wrapping
64-bit counter two steps before wrap, three consecutive Gets return the
first link twice and the third never. -/
theorem pool_round_robin_counterexample :
    (Pool.GetMany 3 (⟨[10, 20, 30], 18446744073709551614⟩ : Pool Nat)).1 = [10, 10, 20] ∧
    (Pool.GetMany 3 (⟨[10, 20, 30], 18446744073709551614⟩ : Pool Nat)).1.count 30 = 0 := by
  constructor <;> decide

/-! ## Token authorization (internal/relay/auth.go)

Strings are modelled as `List Char`.  The library primitive
HMAC-SHA256 with hex encoding (`_compute_hmac`) is modelled as an
abstract function parameter `hmacHex : secret → message → mac`;
hex output is captured by the hypothesis that the mac contains no
colon, and collision resistance by hypotheses that distinct secrets
give distinct macs on the message at hand.  `hmac.Equal` is a
constant-time byte comparison; functionally it is equality.

The age computation
`time.Duration(math.Abs(float64(now-ts))) * time.Second` is modelled
step by step over Int: the int64 subtraction wraps (`wrap64`); the
int64-to-float64 conversion rounds to nearest-even at 53 significant
bits (`_float64_round53`; exact below 2^53, and `math.Abs` commutes
with it); the float64-to-Duration conversion is exact for values up to
2^63 - 1024 (the largest possible rounded value below 2^63), while the
sole remaining value 2^63 is out of int64 range, implementation-defined
in Go, and modelled as wrapping to -2^63; and the multiplication by
`time.Second` (10^9) wraps in int64.  The wrap makes the code accept
timestamps more than about 292 years away from now. -/

inductive TokenError where
  | malformed
  | invalidTimestamp
  | expired
  | signature
deriving DecidableEq, Repr

/-- Reversed base-10 digit list of a natural number. -/
def natToDigitsRev : Nat → List Nat
  | 0 => []
  | n + 1 => (n + 1) % 10 :: natToDigitsRev ((n + 1) / 10)
decreasing_by exact Nat.div_lt_self (Nat.succ_pos n) (by omega)

/-- Character of a single decimal digit. -/
def digitChar (d : Nat) : Char := Char.ofNat (48 + d)

/-- Decimal rendering of a natural number. -/
def natDecChars (n : Nat) : List Char :=
  if n = 0 then ['0'] else (natToDigitsRev n).reverse.map digitChar

/-- Decimal rendering of an integer, `strconv.FormatInt(i, 10)`. -/
def intDecChars (i : Int) : List Char :=
  if i < 0 then '-' :: natDecChars i.natAbs else natDecChars i.natAbs

/-- Split on the first colon, `strings.SplitN(s, ":", 2)`: `none`
models the one-part result (no colon present). -/
def splitOnFirstColon : List Char → Option (List Char × List Char)
  | [] => none
  | c :: cs =>
    if c = ':' then some ([], cs)
    else
      match splitOnFirstColon cs with
      | none => none
      | some (a, b) => some (c :: a, b)

/-- Accumulated value of a decimal digit string. -/
def digitsToNat (l : List Char) : Nat :=
  l.foldl (fun acc c => acc * 10 + (c.toNat - 48)) 0

/-- Digit-run parse under a given sign: at least one digit, all
digits, value within int64. -/
def _parse_digits (sign : Int) (digits : List Char) : Option Int :=
  if digits.isEmpty then none
  else if digits.all Char.isDigit then
    let v : Int := sign * (digitsToNat digits : Int)
    if -9223372036854775808 ≤ v ∧ v ≤ 9223372036854775807 then some v else none
  else none

/-- Signed 64-bit decimal parse, `strconv.ParseInt(s, 10, 64)`:
optional leading sign, then a nonempty all-digit run within int64. -/
def parseInt64 (s : List Char) : Option Int :=
  match s with
  | [] => none
  | c :: cs =>
    if c = '-' then _parse_digits (-1) cs
    else if c = '+' then _parse_digits 1 cs
    else _parse_digits 1 s

theorem parseInt64_cons (c : Char) (cs : List Char) :
    parseInt64 (c :: cs) =
      if c = '-' then _parse_digits (-1) cs
      else if c = '+' then _parse_digits 1 cs
      else _parse_digits 1 (c :: cs) := rfl

/-- GenerateToken creates an auth token `mac ++ ":" ++ ts` where `ts`
is the current Unix time in decimal. -/
def GenerateToken (hmacHex : List Char → List Char → List Char)
    (secret : List Char) (now : Int) : List Char :=
  hmacHex secret (intDecChars now) ++ ':' :: intDecChars now

/-- Two's-complement wrap into int64: the value in
[-2^63, 2^63) congruent to n mod 2^64.  Models Go's wrapping int64
arithmetic. -/
def wrap64 (n : Int) : Int :=
  if n % 18446744073709551616 < 9223372036854775808 then n % 18446744073709551616
  else n % 18446744073709551616 - 18446744073709551616

/-- Round a natural number to 53 significant bits, nearest-even:
the exact integer value of `float64(n)` for 0 ≤ n ≤ 2^63.  Identity
below 2^53. -/
def _float64_round53 (n : Nat) : Nat :=
  if n < 9007199254740992 then n
  else
    let k := n.log2 - 52
    let p := 2 ^ k
    let q := n / p
    let r := n % p
    if r < p / 2 then q * p
    else if p / 2 < r then (q + 1) * p
    else if q % 2 = 0 then q * p else (q + 1) * p

/-- Token validity window in nanoseconds, `5 * time.Minute`. -/
def _token_validity_ns : Int := 300000000000

/-- Age of a token timestamp as the source computes it:
`time.Duration(math.Abs(float64(now-ts))) * time.Second`.  The
subtraction wraps in int64, the float64 conversion rounds to 53 bits
(`Abs` commutes with the symmetric rounding), the Duration conversion
wraps the single out-of-range value 2^63 (implementation-defined in
Go; this is the amd64 result), and the multiplication by 10^9 wraps in
int64. -/
def _token_age_ns (now ts : Int) : Int :=
  wrap64 (wrap64 ((_float64_round53 (wrap64 (now - ts)).natAbs : Nat) : Int) * 1000000000)

theorem wrap64_eq_self (n : Int)
    (h1 : -9223372036854775808 ≤ n) (h2 : n < 9223372036854775808) :
    wrap64 n = n := by
  unfold wrap64
  split <;> omega

theorem float64_round53_eq_self (n : Nat) (h : n < 9007199254740992) :
    _float64_round53 n = n := by
  unfold _float64_round53
  rw [if_pos h]

theorem token_age_self (now : Int) : _token_age_ns now now = 0 := by
  unfold _token_age_ns
  rw [Int.sub_self]
  rfl

theorem token_age_exact (now ts : Int) (h : (now - ts).natAbs ≤ 9223372036) :
    _token_age_ns now ts = ((now - ts).natAbs : Int) * 1000000000 := by
  unfold _token_age_ns
  rw [wrap64_eq_self (now - ts) (by omega) (by omega)]
  rw [float64_round53_eq_self (now - ts).natAbs (by omega)]
  rw [wrap64_eq_self ((now - ts).natAbs : Int) (by omega) (by omega)]
  rw [wrap64_eq_self (((now - ts).natAbs : Int) * 1000000000) (by omega) (by omega)]

/-- ValidateToken checks a token against the shared secret: split on
the first colon, parse the timestamp, reject when the computed age
exceeds 5 minutes, then compare the expected mac.  `none` is
success. -/
def ValidateToken (hmacHex : List Char → List Char → List Char)
    (secret token : List Char) (now : Int) : Option TokenError :=
  match splitOnFirstColon token with
  | none => some .malformed
  | some (mac, tsStr) =>
    match parseInt64 tsStr with
    | none => some .invalidTimestamp
    | some ts =>
      if _token_validity_ns < _token_age_ns now ts then some .expired
      else if hmacHex secret tsStr = mac then none
      else some .signature

theorem digitsRev_lt_ten : ∀ n, ∀ d ∈ natToDigitsRev n, d < 10 := by
  intro n
  induction n using Nat.strong_induction_on with
  | _ n ih =>
    match n with
    | 0 => intro d hd; simp [natToDigitsRev] at hd
    | m + 1 =>
      intro d hd
      rw [natToDigitsRev] at hd
      rcases List.mem_cons.mp hd with h | h
      · subst h; exact Nat.mod_lt _ (by omega)
      · exact ih ((m + 1) / 10) (Nat.div_lt_self (Nat.succ_pos m) (by omega)) d h

theorem digitsVal_rev : ∀ n, (natToDigitsRev n).reverse.foldl (fun a d => a * 10 + d) 0 = n := by
  intro n
  induction n using Nat.strong_induction_on with
  | _ n ih =>
    match n with
    | 0 => simp [natToDigitsRev]
    | m + 1 =>
      rw [natToDigitsRev, List.reverse_cons, List.foldl_append]
      rw [ih ((m + 1) / 10) (Nat.div_lt_self (Nat.succ_pos m) (by omega))]
      show (m + 1) / 10 * 10 + (m + 1) % 10 = m + 1
      omega

theorem digitChar_toNat (d : Nat) (h : d < 10) : (digitChar d).toNat = 48 + d := by
  interval_cases d <;> decide

theorem digitChar_isDigit (d : Nat) (h : d < 10) : (digitChar d).isDigit = true := by
  interval_cases d <;> decide

theorem digitChar_ne (d : Nat) (h : d < 10) :
    digitChar d ≠ ':' ∧ digitChar d ≠ '-' ∧ digitChar d ≠ '+' := by
  interval_cases d <;> exact ⟨by decide, by decide, by decide⟩

theorem natDecChars_all_digit (n : Nat) : (natDecChars n).all Char.isDigit = true := by
  unfold natDecChars
  by_cases h : n = 0
  · rw [if_pos h]; rfl
  · rw [if_neg h, List.all_eq_true]
    intro c hc
    obtain ⟨d, hd, rfl⟩ := List.mem_map.mp hc
    exact digitChar_isDigit d (digitsRev_lt_ten n d (List.mem_reverse.mp hd))

theorem natDecChars_ne_nil (n : Nat) : natDecChars n ≠ [] := by
  unfold natDecChars
  by_cases h : n = 0
  · rw [if_pos h]; exact List.cons_ne_nil _ _
  · rw [if_neg h]
    match n, h with
    | m + 1, _ =>
      rw [natToDigitsRev, List.reverse_cons]
      simp

theorem isDigit_ne (c : Char) (h : c.isDigit = true) :
    c ≠ '-' ∧ c ≠ '+' ∧ c ≠ ':' := by
  refine ⟨?_, ?_, ?_⟩ <;> intro hc <;> subst hc <;> exact absurd h (by decide)

theorem digitsToNat_map (l : List Nat) (hl : ∀ d ∈ l, d < 10) :
    digitsToNat (l.map digitChar) = l.foldl (fun a d => a * 10 + d) 0 := by
  unfold digitsToNat
  rw [List.foldl_map]
  refine List.foldl_ext _ _ 0 ?_
  intro a d hd
  rw [digitChar_toNat d (hl d hd)]
  omega

theorem digitsToNat_natDecChars (n : Nat) : digitsToNat (natDecChars n) = n := by
  unfold natDecChars
  by_cases h : n = 0
  · rw [if_pos h, h]; rfl
  · rw [if_neg h]
    rw [digitsToNat_map _ (fun d hd => digitsRev_lt_ten n d (List.mem_reverse.mp hd))]
    exact digitsVal_rev n

theorem parse_digits_natDecChars (sign : Int) (n : Nat) :
    _parse_digits sign (natDecChars n) =
      (if -9223372036854775808 ≤ sign * (n : Int) ∧ sign * (n : Int) ≤ 9223372036854775807
        then some (sign * (n : Int)) else none) := by
  unfold _parse_digits
  rw [if_neg (by
    rcases hnc : natDecChars n with _ | ⟨c, cs⟩
    · exact absurd hnc (natDecChars_ne_nil n)
    · simp)]
  rw [if_pos (natDecChars_all_digit n)]
  rw [digitsToNat_natDecChars n]

theorem parseInt64_natDecChars (n : Nat) (h : (n : Int) ≤ 9223372036854775807) :
    parseInt64 (natDecChars n) = some (n : Int) := by
  rcases hnc : natDecChars n with _ | ⟨c, cs⟩
  · exact absurd hnc (natDecChars_ne_nil n)
  · have hall : (c :: cs).all Char.isDigit = true := hnc ▸ natDecChars_all_digit n
    have hc : c.isDigit = true := by
      rw [List.all_cons, Bool.and_eq_true] at hall
      exact hall.1
    obtain ⟨hm, hp, _⟩ := isDigit_ne c hc
    rw [parseInt64_cons, if_neg hm, if_neg hp, ← hnc, parse_digits_natDecChars 1 n]
    rw [one_mul, if_pos ⟨by omega, h⟩]

theorem parseInt64_intDecChars (ts : Int)
    (h1 : -9223372036854775808 ≤ ts) (h2 : ts ≤ 9223372036854775807) :
    parseInt64 (intDecChars ts) = some ts := by
  unfold intDecChars
  by_cases hneg : ts < 0
  · rw [if_pos hneg]
    have habs : (-1 : Int) * (ts.natAbs : Int) = ts := by omega
    rw [parseInt64_cons, if_pos rfl, parse_digits_natDecChars (-1) ts.natAbs, habs]
    rw [if_pos ⟨h1, by omega⟩]
  · rw [if_neg hneg]
    have hcast : (ts.natAbs : Int) = ts := Int.natAbs_of_nonneg (by omega)
    rw [show some ts = some ((ts.natAbs : Int)) from by rw [hcast]]
    exact parseInt64_natDecChars ts.natAbs (by omega)

theorem splitOnFirstColon_append (a b : List Char) :
    ':' ∉ a → splitOnFirstColon (a ++ ':' :: b) = some (a, b) := by
  induction a with
  | nil => intro _; simp [splitOnFirstColon]
  | cons c cs ih =>
    intro h
    rw [List.cons_append, splitOnFirstColon]
    rw [if_neg (show ¬ c = ':' from
      fun hc => h (by rw [hc]; exact List.mem_cons_self ':' cs))]
    rw [ih (fun hm => h (List.mem_cons_of_mem c hm))]

theorem splitOnFirstColon_none (l : List Char) :
    ':' ∉ l → splitOnFirstColon l = none := by
  induction l with
  | nil => intro _; rfl
  | cons c cs ih =>
    intro h
    rw [splitOnFirstColon]
    rw [if_neg (show ¬ c = ':' from
      fun hc => h (by rw [hc]; exact List.mem_cons_self ':' cs))]
    rw [ih (fun hm => h (List.mem_cons_of_mem c hm))]

theorem splitOnFirstColon_two_colons (l : List Char) (h : 2 ≤ l.count ':') :
    ∃ a b, splitOnFirstColon l = some (a, b) ∧ ':' ∈ b := by
  induction l with
  | nil => simp at h
  | cons c cs ih =>
    by_cases hc : c = ':'
    · subst hc
      refine ⟨[], cs, by rw [splitOnFirstColon, if_pos rfl], ?_⟩
      rw [List.count_cons_self] at h
      exact List.count_pos_iff.mp (by omega)
    · have hcount : 2 ≤ cs.count ':' := by
        rw [List.count_cons_of_ne (fun he => hc he.symm)] at h
        exact h
      obtain ⟨a, b, hsp, hb⟩ := ih hcount
      exact ⟨c :: a, b, by rw [splitOnFirstColon, if_neg hc, hsp], hb⟩

theorem parseInt64_none_of_colon (s : List Char) (h : ':' ∈ s) :
    parseInt64 s = none := by
  have hall : ∀ t : List Char, ':' ∈ t → t.all Char.isDigit = false := by
    intro t ht
    rw [← Bool.not_eq_true, List.all_eq_true]
    intro hforall
    exact absurd (hforall ':' ht) (by decide)
  have hpd : ∀ (sg : Int) (t : List Char), ':' ∈ t → _parse_digits sg t = none := by
    intro sg t ht
    unfold _parse_digits
    by_cases he : t.isEmpty
    · rw [if_pos he]
    · rw [if_neg he, if_neg (by rw [hall t ht]; exact Bool.false_ne_true)]
  match s, h with
  | c :: cs, h =>
    rw [parseInt64_cons]
    by_cases h1 : c = '-'
    · rw [if_pos h1]
      exact hpd _ cs (by
        rcases List.mem_cons.mp h with hh | hh
        · exact absurd (h1 ▸ hh) (by decide)
        · exact hh)
    · rw [if_neg h1]
      by_cases h2 : c = '+'
      · rw [if_pos h2]
        exact hpd _ cs (by
          rcases List.mem_cons.mp h with hh | hh
          · exact absurd (h2 ▸ hh) (by decide)
          · exact hh)
      · rw [if_neg h2]
        exact hpd _ (c :: cs) h

theorem validate_split (hmacHex : List Char → List Char → List Char)
    (secret mac tsStr : List Char) (now : Int) (h : ':' ∉ mac) :
    ValidateToken hmacHex secret (mac ++ ':' :: tsStr) now =
      match parseInt64 tsStr with
      | none => some .invalidTimestamp
      | some ts =>
        if _token_validity_ns < _token_age_ns now ts then some .expired
        else if hmacHex secret tsStr = mac then none
        else some .signature := by
  unfold ValidateToken
  rw [splitOnFirstColon_append mac tsStr h]

/-- C1 (amended): Token round-trip and rejection.  With HMAC-SHA256
hex encoding modelled as an abstract `hmacHex` whose output contains no
colon, and Unix timestamps within int64: validating a freshly generated
token at the same time succeeds; validating with a different secret
whose mac differs fails with a signature error; a token whose embedded
timestamp differs from now by more than 300 seconds — and by at most
9,223,372,036 seconds, the range in which the nanosecond conversion
does not overflow int64 — fails with an expired error; a token with
zero colons fails as malformed; and a token with two or more colons is
rejected (its timestamp part cannot parse). -/
theorem token_auth (hmacHex : List Char → List Char → List Char) :
    (∀ (secret : List Char) (now : Int),
      -9223372036854775808 ≤ now → now ≤ 9223372036854775807 →
      ':' ∉ hmacHex secret (intDecChars now) →
      ValidateToken hmacHex secret (GenerateToken hmacHex secret now) now = none) ∧
    (∀ (s s' : List Char) (now : Int),
      -9223372036854775808 ≤ now → now ≤ 9223372036854775807 →
      ':' ∉ hmacHex s (intDecChars now) →
      hmacHex s' (intDecChars now) ≠ hmacHex s (intDecChars now) →
      ValidateToken hmacHex s' (GenerateToken hmacHex s now) now =
        some TokenError.signature) ∧
    (∀ (secret mac : List Char) (ts now : Int),
      ':' ∉ mac →
      -9223372036854775808 ≤ ts → ts ≤ 9223372036854775807 →
      300 < (now - ts).natAbs →
      (now - ts).natAbs ≤ 9223372036 →
      ValidateToken hmacHex secret (mac ++ ':' :: intDecChars ts) now =
        some TokenError.expired) ∧
    (∀ (secret token : List Char) (now : Int), ':' ∉ token →
      ValidateToken hmacHex secret token now = some TokenError.malformed) ∧
    (∀ (secret token : List Char) (now : Int), 2 ≤ token.count ':' →
      ValidateToken hmacHex secret token now = some TokenError.invalidTimestamp) := by
  refine ⟨?_, ?_, ?_, ?_, ?_⟩
  · intro secret now h1 h2 hcol
    unfold GenerateToken
    rw [validate_split hmacHex secret _ _ now hcol]
    rw [parseInt64_intDecChars now h1 h2]
    simp only
    rw [if_neg (by rw [token_age_self]; decide)]
    simp
  · intro s s' now h1 h2 hcol hne
    unfold GenerateToken
    rw [validate_split hmacHex s' _ _ now hcol]
    rw [parseInt64_intDecChars now h1 h2]
    simp only
    rw [if_neg (by rw [token_age_self]; decide), if_neg hne]
  · intro secret mac ts now hcol h1 h2 hexp hbound
    rw [validate_split hmacHex secret _ _ now hcol]
    rw [parseInt64_intDecChars ts h1 h2]
    simp only
    rw [if_pos (by
      rw [token_age_exact now ts hbound]
      unfold _token_validity_ns
      omega)]
  · intro secret token now hcol
    unfold ValidateToken
    rw [splitOnFirstColon_none token hcol]
  · intro secret token now hcount
    obtain ⟨a, b, hsp, hb⟩ := splitOnFirstColon_two_colons token hcount
    unfold ValidateToken
    rw [hsp]
    simp only
    rw [parseInt64_none_of_colon b hb]

/-- Witness for C1 at a concrete abstract hmac, secrets and time. -/
theorem token_auth_witness :
    ValidateToken (fun s _ => s) ['a'] (GenerateToken (fun s _ => s) ['a'] 0) 0 = none ∧
    ValidateToken (fun s _ => s) ['b'] (GenerateToken (fun s _ => s) ['a'] 0) 0 =
      some TokenError.signature ∧
    ValidateToken (fun s _ => s) ['a'] (['a'] ++ ':' :: intDecChars 301) 0 =
      some TokenError.expired ∧
    ValidateToken (fun s _ => s) ['a'] ['x'] 0 = some TokenError.malformed ∧
    ValidateToken (fun s _ => s) ['a'] [':', 'q', ':'] 0 =
      some TokenError.invalidTimestamp := by
  have h := token_auth (fun s _ => s)
  exact ⟨h.1 ['a'] 0 (by decide) (by decide) (by decide),
    h.2.1 ['a'] ['b'] 0 (by decide) (by decide) (by decide) (by decide),
    h.2.2.1 ['a'] ['a'] 301 0 (by decide) (by decide) (by decide) (by decide) (by decide),
    h.2.2.2.1 ['a'] ['x'] 0 (by decide),
    h.2.2.2.2 ['a'] [':', 'q', ':'] 0 (by decide)⟩

/-- Counterexample for C1 as stated.  A correctly signed token whose
timestamp lies 10^10 seconds in the past is accepted: the wrapping
int64 multiplication turns the 10^19 ns age into a negative Duration,
so the expiry check does not fire, even though the absolute difference
between now and the embedded timestamp far exceeds 5 minutes. -/
theorem token_expiry_overflow_counterexample :
    ValidateToken (fun s _ => s) ['a'] (['a'] ++ ':' :: intDecChars (-10000000000)) 0 =
      none ∧
    300 < ((0 : Int) - (-10000000000)).natAbs ∧
    _token_age_ns 0 (-10000000000) = -8446744073709551616 := by
  refine ⟨?_, by decide, by decide⟩
  have e1 := validate_split (fun s _ => s) ['a'] ['a'] (intDecChars (-10000000000)) 0 (by decide)
  have e2 : (match parseInt64 (intDecChars (-10000000000)) with
      | none => some TokenError.invalidTimestamp
      | some ts =>
        if _token_validity_ns < _token_age_ns 0 ts then some TokenError.expired
        else if (fun (s : List Char) (_ : List Char) => s) ['a'] (intDecChars (-10000000000)) = ['a']
          then none else some TokenError.signature)
      = none := by
    rw [parseInt64_intDecChars (-10000000000) (by decide) (by decide)]
    show (if _token_validity_ns < _token_age_ns 0 (-10000000000) then some TokenError.expired
      else if (fun (s : List Char) (_ : List Char) => s) ['a'] (intDecChars (-10000000000)) = ['a']
        then none else some TokenError.signature) = none
    rw [if_neg (by decide)]
    simp
  exact e1.trans e2

/-! ## Relay request handler (internal/relay/handler.go) and relay-side
tunnel dispatch (internal/relay/tunnel.go)

The response sink is modelled as the list of events the handler
receives before its timer fires: an exhausted event list means the
select hits the timeout case.  JSON deserialisation of the tunnelled
response (`json.Unmarshal`) is library code, modelled as an abstract
`decode` parameter.  Registry effects performed by `ServeHTTP` itself
(via `SendRequest`, which registers the sink before writing and
unregisters it on write failure) are recorded as explicit actions;
`_remove_stream` is invoked by the read loop on a later STREAM_CLOSE
or by `Close`, never by the handler. -/

/-- TunnelledResponse mirrors the relay-side response struct:
status code, single-valued headers, body bytes. -/
structure TunnelledResponse where
  statusCode : Int
  headers : List (String × String)
  body : List Nat
deriving DecidableEq, Repr

/-- What the handler writes to the public client: an `http.Error`
with status and body, or a decoded tunnelled response. -/
inductive HttpOut where
  | httpError (status : Nat) (body : String)
  | written (r : TunnelledResponse)
deriving DecidableEq, Repr

/-- One observation on the response sink: a frame delivered to the
channel, or the channel being closed. -/
inductive SinkEvent where
  | frame (f : Frame)
  | closed
deriving DecidableEq, Repr

/-- write_response: empty data is 502 "empty response from backend",
undecodable data is 502 "invalid response from backend", otherwise the
decoded response is written (status, headers, body). -/
def _write_response (decode : List Nat → Option TunnelledResponse)
    (data : List Nat) : HttpOut :=
  if data.isEmpty then .httpError 502 "empty response from backend"
  else
    match decode data with
    | none => .httpError 502 "invalid response from backend"
    | some r => .written r

/-- collect_response: consume sink events in order; HTTP_RESPONSE and
BODY_CHUNK payloads are appended to the accumulator, STREAM_CLOSE emits
the accumulated response, channel close emits 502 "tunnel closed" when
nothing accumulated and the accumulated response otherwise, and an
exhausted event list (the timer fires first) is
504 "request timed out".  Other frame types fall through the switch and
the loop continues. -/
def _collect_response (decode : List Nat → Option TunnelledResponse) :
    List SinkEvent → List Nat → HttpOut
  | [], _ => .httpError 504 "request timed out"
  | .closed :: _, acc =>
    if acc.isEmpty then .httpError 502 "tunnel closed"
    else _write_response decode acc
  | .frame f :: rest, acc =>
    if f.type = TypeHTTPResponse then _collect_response decode rest (acc ++ f.payload)
    else if f.type = TypeBodyChunk then _collect_response decode rest (acc ++ f.payload)
    else if f.type = TypeStreamClose then _write_response decode acc
    else _collect_response decode rest acc

/-- Registry effects the handler performs on the stream table. -/
inductive RegAction where
  | register (sid : Nat)
  | removeStream (sid : Nat)
deriving DecidableEq, Repr

/-- Outcome of one ServeHTTP run: what is written to the client and
which registry actions the handler performed. -/
structure ServeOutcome where
  out : HttpOut
  regActions : List RegAction
deriving DecidableEq, Repr

/-- Continuation-frame send loop: frame i+1 is written with write
call i+1; the loop stops at the first failure. -/
def _send_continuations (w : Nat → Bool) : Nat → List Frame → Bool
  | _, [] => true
  | i, _ :: fs => w i && _send_continuations w (i + 1) fs

/-- ServeHTTP after pool selection and request serialisation: chunk the
payload, send the first frame via SendRequest (register sink, write,
unregister on failure, 502 "tunnel error"), send continuations via
SendFrame (502 "tunnel error" on failure, sink left registered), then
send STREAM_CLOSE whose write failure is only logged, then collect the
response.  `w i` is the outcome of the i-th frame write on the codec. -/
def ServeHTTP_model (w : Nat → Bool) (decode : List Nat → Option TunnelledResponse)
    (sid : Nat) (payload : List Nat) (events : List SinkEvent) : ServeOutcome :=
  let frames := _chunk_payload sid TypeHTTPRequest payload
  if w 0 = false then
    ⟨.httpError 502 "tunnel error", [.register sid, .removeStream sid]⟩
  else if _send_continuations w 1 frames.tail = false then
    ⟨.httpError 502 "tunnel error", [.register sid]⟩
  else
    let _closeWriteOk : Bool := w frames.length
    ⟨_collect_response decode events [], [.register sid]⟩

theorem collect_no_terminal (decode : List Nat → Option TunnelledResponse) :
    ∀ (events : List SinkEvent) (acc : List Nat),
      SinkEvent.closed ∉ events →
      (∀ f : Frame, SinkEvent.frame f ∈ events → f.type ≠ TypeStreamClose) →
      _collect_response decode events acc = .httpError 504 "request timed out" := by
  intro events
  induction events with
  | nil => intro acc _ _; rfl
  | cons e rest ih =>
    intro acc hc hf
    match e with
    | .closed => exact absurd (List.mem_cons_self _ _) hc
    | .frame f =>
      have hcr : SinkEvent.closed ∉ rest := fun hm => hc (List.mem_cons_of_mem _ hm)
      have hfr : ∀ g : Frame, SinkEvent.frame g ∈ rest → g.type ≠ TypeStreamClose :=
        fun g hm => hf g (List.mem_cons_of_mem _ hm)
      have hnotclose : f.type ≠ TypeStreamClose := hf f (List.mem_cons_self _ _)
      rw [_collect_response]
      by_cases h2 : f.type = TypeHTTPResponse
      · rw [if_pos h2]; exact ih _ hcr hfr
      · rw [if_neg h2]
        by_cases h3 : f.type = TypeBodyChunk
        · rw [if_pos h3]; exact ih _ hcr hfr
        · rw [if_neg h3, if_neg hnotclose]; exact ih _ hcr hfr

/-- C2 (amended): Relay request timeout.  When the sink receives
neither a STREAM_CLOSE frame nor a channel close before the timer
fires, the handler responds 504 "request timed out", but the sink is
NOT removed by the handler at timeout: the only registry actions
performed are the registration (removal happens later, on a
STREAM_CLOSE from the agent or on tunnel close). -/
theorem relay_timeout (w : Nat → Bool) (decode : List Nat → Option TunnelledResponse)
    (sid : Nat) (payload : List Nat) (events : List SinkEvent)
    (hw0 : w 0 = true)
    (hwc : _send_continuations w 1 (_chunk_payload sid TypeHTTPRequest payload).tail = true)
    (hnc : SinkEvent.closed ∉ events)
    (hnf : ∀ f : Frame, SinkEvent.frame f ∈ events → f.type ≠ TypeStreamClose) :
    (ServeHTTP_model w decode sid payload events).out =
      .httpError 504 "request timed out" ∧
    (ServeHTTP_model w decode sid payload events).regActions = [.register sid] ∧
    RegAction.removeStream sid ∉
      (ServeHTTP_model w decode sid payload events).regActions := by
  unfold ServeHTTP_model
  rw [if_neg (by rw [hw0]; simp), if_neg (by rw [hwc]; simp)]
  exact ⟨collect_no_terminal decode events [] hnc hnf, rfl, by simp⟩

/-- Witness for C2 at a concrete run: one frame, all writes succeed,
no events before the timer. -/
theorem relay_timeout_witness :
    (ServeHTTP_model (fun _ => true) (fun _ => none) 1 [7] []).out =
      .httpError 504 "request timed out" ∧
    (ServeHTTP_model (fun _ => true) (fun _ => none) 1 [7] []).regActions =
      [.register 1] ∧
    RegAction.removeStream 1 ∉
      (ServeHTTP_model (fun _ => true) (fun _ => none) 1 [7] []).regActions :=
  relay_timeout (fun _ => true) (fun _ => none) 1 [7] []
    (by decide) (by decide) (by decide)
    (by intro f hf; exact absurd hf (List.not_mem_nil _))

/-- Counterexample for C2 as stated: at timeout the handler has
registered the sink and never removed it; no removal action fires. -/
theorem relay_timeout_counterexample :
    ServeHTTP_model (fun _ => true) (fun _ => none) 2 [7] [] =
      ⟨.httpError 504 "request timed out", [.register 2]⟩ ∧
    RegAction.removeStream 2 ∉
      (ServeHTTP_model (fun _ => true) (fun _ => none) 2 [7] []).regActions := by
  constructor <;> decide

/-- C3 (amended): Relay send-failure paths.  A failure of the first
frame write (SendRequest) yields 502 "tunnel error" with the sink
registered and then unregistered; a failure of a continuation frame
write (SendFrame) yields 502 "tunnel error" but the sink stays
registered; and when all request frames are written the handler
proceeds to collect the response regardless of whether the final
STREAM_CLOSE write succeeds (its failure is only logged). -/
theorem relay_send_failure_paths (w : Nat → Bool)
    (decode : List Nat → Option TunnelledResponse) (sid : Nat)
    (payload : List Nat) (events : List SinkEvent) :
    (w 0 = false →
      ServeHTTP_model w decode sid payload events =
        ⟨.httpError 502 "tunnel error", [.register sid, .removeStream sid]⟩) ∧
    (w 0 = true →
      _send_continuations w 1 (_chunk_payload sid TypeHTTPRequest payload).tail = false →
      ServeHTTP_model w decode sid payload events =
        ⟨.httpError 502 "tunnel error", [.register sid]⟩) ∧
    (w 0 = true →
      _send_continuations w 1 (_chunk_payload sid TypeHTTPRequest payload).tail = true →
      ServeHTTP_model w decode sid payload events =
        ⟨_collect_response decode events [], [.register sid]⟩) := by
  refine ⟨?_, ?_, ?_⟩
  · intro h1
    unfold ServeHTTP_model
    rw [if_pos h1]
  · intro h1 h2
    unfold ServeHTTP_model
    rw [if_neg (by rw [h1]; simp), if_pos h2]
  · intro h1 h2
    unfold ServeHTTP_model
    rw [if_neg (by rw [h1]; simp), if_neg (by rw [h2]; simp)]

/-- Witness for C3 at a first-frame write failure. -/
theorem relay_send_failure_paths_witness :
    ServeHTTP_model (fun _ => false) (fun _ => none) 3 [7] [] =
      ⟨.httpError 502 "tunnel error", [.register 3, .removeStream 3]⟩ :=
  (relay_send_failure_paths (fun _ => false) (fun _ => none) 3 [7] []).1 (by decide)

theorem send_continuations_false (w : Nat → Bool) (i : Nat) (fs : List Frame)
    (hne : fs ≠ []) (hwi : w i = false) : _send_continuations w i fs = false := by
  match fs, hne with
  | f :: fs, _ =>
    rw [_send_continuations, hwi]
    rfl

theorem serve_model_cont_failure (w : Nat → Bool)
    (decode : List Nat → Option TunnelledResponse) (sid : Nat)
    (payload : List Nat) (events : List SinkEvent)
    (h1 : w 0 = true)
    (h2 : _send_continuations w 1 (_chunk_payload sid TypeHTTPRequest payload).tail = false) :
    ServeHTTP_model w decode sid payload events =
      ⟨.httpError 502 "tunnel error", [.register sid]⟩ := by
  unfold ServeHTTP_model
  rw [if_neg (by rw [h1]; simp), if_pos h2]

/-- Counterexample for C3 as stated.  First part: a continuation-frame
send failure (65,537-byte payload, write 1 fails) yields 502 but the
sink is left registered — no removal action.  Second part: with a
single-frame payload whose STREAM_CLOSE write (write 1) fails, the
handler neither responds 502 nor unregisters: it proceeds to collect
and times out. -/
theorem relay_send_failure_counterexample :
    ((ServeHTTP_model (fun i => decide (i = 0)) (fun _ => none) 1
        (List.replicate 65537 0) []).out = .httpError 502 "tunnel error" ∧
      RegAction.removeStream 1 ∉ (ServeHTTP_model (fun i => decide (i = 0)) (fun _ => none) 1
        (List.replicate 65537 0) []).regActions) ∧
    ServeHTTP_model (fun i => decide (i = 0)) (fun _ => none) 1 [7] [] =
      ⟨.httpError 504 "request timed out", [.register 1]⟩ := by
  have hlen2 : (_chunk_payload 1 TypeHTTPRequest (List.replicate 65537 0)).length = 2 := by
    unfold _chunk_payload
    rw [if_neg (by rw [List.length_replicate]; decide)]
    have h := (chunk_loop_props 1 TypeHTTPRequest (List.replicate 65537 0).length
        (List.replicate 65537 0) true (Nat.le_refl _)).2.2.2
    rw [h, List.length_replicate]
  have htne : (_chunk_payload 1 TypeHTTPRequest (List.replicate 65537 0)).tail ≠ [] := by
    intro hc
    have h1 : (_chunk_payload 1 TypeHTTPRequest (List.replicate 65537 0)).tail.length = 0 := by
      rw [hc]
      rfl
    rw [List.length_tail, hlen2] at h1
    exact absurd h1 (by decide)
  have hsc : _send_continuations (fun i => decide (i = 0)) 1
      (_chunk_payload 1 TypeHTTPRequest (List.replicate 65537 0)).tail = false :=
    send_continuations_false _ 1 _ htne (by decide)
  have hout := serve_model_cont_failure (fun i => decide (i = 0)) (fun _ => none) 1
    (List.replicate 65537 0) [] (by decide) hsc
  refine ⟨⟨?_, ?_⟩, by decide⟩
  · rw [hout]
  · rw [hout]
    decide

theorem collect_accumulates (decode : List Nat → Option TunnelledResponse) :
    ∀ (fs : List Frame) (events : List SinkEvent) (acc : List Nat),
      (∀ f ∈ fs, f.type = TypeHTTPResponse ∨ f.type = TypeBodyChunk) →
      _collect_response decode (fs.map SinkEvent.frame ++ events) acc =
        _collect_response decode events (acc ++ (fs.map Frame.payload).flatten) := by
  intro fs
  induction fs with
  | nil => intro events acc _; simp
  | cons f fs ih =>
    intro events acc hf
    rw [List.map_cons, List.cons_append, _collect_response]
    have hrest : ∀ g ∈ fs, g.type = TypeHTTPResponse ∨ g.type = TypeBodyChunk :=
      fun g hg => hf g (List.mem_cons_of_mem f hg)
    rcases hf f (List.mem_cons_self f fs) with h2 | h3
    · rw [if_pos h2, ih events (acc ++ f.payload) hrest]
      rw [List.map_cons, List.flatten_cons, List.append_assoc]
    · by_cases h2 : f.type = TypeHTTPResponse
      · rw [if_pos h2, ih events (acc ++ f.payload) hrest]
        rw [List.map_cons, List.flatten_cons, List.append_assoc]
      · rw [if_neg h2, if_pos h3, ih events (acc ++ f.payload) hrest]
        rw [List.map_cons, List.flatten_cons, List.append_assoc]

/-- C9: Relay response-collection terminals.  A STREAM_CLOSE frame
emits the accumulated bytes through write_response (the close frame's
own payload is not appended); accumulation appends HTTP_RESPONSE and
BODY_CHUNK payloads in order; write_response of empty data is
502 "empty response from backend" and of decodable data writes the
decoded response; channel close with nothing accumulated is
502 "tunnel closed"; channel close with accumulated data emits the
accumulated response (lenient terminal). -/
theorem relay_response_collection (decode : List Nat → Option TunnelledResponse) :
    (∀ (acc : List Nat) (sid : Nat) (pl : List Nat) (rest : List SinkEvent),
      _collect_response decode (.frame ⟨TypeStreamClose, sid, pl⟩ :: rest) acc =
        _write_response decode acc) ∧
    (∀ (fs : List Frame) (events : List SinkEvent) (acc : List Nat),
      (∀ f ∈ fs, f.type = TypeHTTPResponse ∨ f.type = TypeBodyChunk) →
      _collect_response decode (fs.map SinkEvent.frame ++ events) acc =
        _collect_response decode events (acc ++ (fs.map Frame.payload).flatten)) ∧
    (∀ (r : TunnelledResponse) (data : List Nat), data ≠ [] → decode data = some r →
      _write_response decode data = .written r) ∧
    (_write_response decode [] = .httpError 502 "empty response from backend") ∧
    (∀ rest : List SinkEvent,
      _collect_response decode (.closed :: rest) [] = .httpError 502 "tunnel closed") ∧
    (∀ (acc : List Nat) (rest : List SinkEvent), acc ≠ [] →
      _collect_response decode (.closed :: rest) acc = _write_response decode acc) := by
  refine ⟨?_, collect_accumulates decode, ?_, rfl, ?_, ?_⟩
  · intro acc sid pl rest
    rw [_collect_response]
    dsimp only
    rw [if_neg (by decide), if_neg (by decide), if_pos rfl]
  · intro r data hne hdec
    unfold _write_response
    rw [if_neg (by simpa [List.isEmpty_iff] using hne), hdec]
  · intro rest
    rfl
  · intro acc rest hne
    rw [_collect_response]
    rw [if_neg (by simpa [List.isEmpty_iff] using hne)]

/-- Witness for C9: one HTTP_RESPONSE frame carrying byte 7, then a
STREAM_CLOSE; the decoder maps [7] to a concrete response. -/
theorem relay_response_collection_witness :
    _collect_response (fun l => if l = [7] then some ⟨200, [], [9]⟩ else none)
      [.frame ⟨TypeHTTPResponse, 1, [7]⟩, .frame ⟨TypeStreamClose, 1, []⟩] [] =
      .written ⟨200, [], [9]⟩ ∧
    _collect_response (fun l => if l = [7] then some ⟨200, [], [9]⟩ else none)
      [.closed] [] = .httpError 502 "tunnel closed" := by
  have h := relay_response_collection
    (fun l => if l = [7] then some ⟨200, [], [9]⟩ else none)
  constructor
  · have s1 := h.2.1 [⟨TypeHTTPResponse, 1, [7]⟩] [.frame ⟨TypeStreamClose, 1, []⟩] []
      (by intro f hf; rw [List.mem_singleton.mp hf]; exact Or.inl rfl)
    have s2 := h.1 [7] 1 [] []
    have s3 := h.2.2.1 ⟨200, [], [9]⟩ [7] (by decide) (by decide)
    exact s1.trans (show _collect_response _ [SinkEvent.frame ⟨TypeStreamClose, 1, []⟩]
      ([] ++ ([(⟨TypeHTTPResponse, 1, [7]⟩ : Frame)].map Frame.payload).flatten) =
        .written ⟨200, [], [9]⟩ from s2.trans s3)
  · exact h.2.2.2.2.1 []

/-! ## Relay-side read dispatch (internal/relay/tunnel.go `_read_loop`) -/

/-- Registry/sink effect of dispatching one inbound frame. -/
inductive RelayDispatch where
  | ignore
  | deliver (sid : Nat)
  | deliverAndClose (sid : Nat)
  | drop
  | unexpected
deriving DecidableEq, Repr

/-- Result of one iteration of the relay read loop on a decoded frame:
the frames it writes back on the codec, and the registry/sink effect. -/
structure DispatchResult where
  writes : List Frame
  action : RelayDispatch
deriving DecidableEq, Repr

/-- relay_dispatch models the switch in the relay-side read loop: PONG
is a no-op; HTTP_RESPONSE, BODY_CHUNK and STREAM_CLOSE are delivered to
the stream sink when present (STREAM_CLOSE additionally removes it) and
dropped otherwise; every other type — including PING — hits the default
branch: logged as an unexpected frame type and dropped.  No branch of
the switch writes to the codec. -/
def _relay_dispatch (hasSink : Nat → Bool) (f : Frame) : DispatchResult :=
  ⟨[],
    if f.type = TypePong then .ignore
    else if f.type = TypeHTTPResponse ∨ f.type = TypeBodyChunk then
      (if hasSink f.streamID then .deliver f.streamID else .drop)
    else if f.type = TypeStreamClose then
      (if hasSink f.streamID then .deliverAndClose f.streamID else .drop)
    else .unexpected⟩

/-- C4 (amended): Relay keepalive asymmetry.  The relay-side read loop
never writes on the codec in response to an inbound frame, and a PING
frame is handled by the default branch: dropped as an unexpected type,
with no PONG written and the link left up. -/
theorem relay_dispatch_ping (hasSink : Nat → Bool) (f : Frame) :
    (_relay_dispatch hasSink f).writes = [] ∧
    (f.type = TypePing →
      (_relay_dispatch hasSink f).action = RelayDispatch.unexpected) := by
  refine ⟨rfl, ?_⟩
  intro hp
  show (if f.type = TypePong then RelayDispatch.ignore
    else if f.type = TypeHTTPResponse ∨ f.type = TypeBodyChunk then
      (if hasSink f.streamID then .deliver f.streamID else .drop)
    else if f.type = TypeStreamClose then
      (if hasSink f.streamID then .deliverAndClose f.streamID else .drop)
    else .unexpected) = RelayDispatch.unexpected
  rw [hp]
  rw [if_neg (by decide), if_neg (by decide), if_neg (by decide)]

/-- Witness for C4 at a concrete PING frame. -/
theorem relay_dispatch_ping_witness :
    (_relay_dispatch (fun _ => true) ⟨TypePing, 0, []⟩).writes = [] ∧
    (_relay_dispatch (fun _ => true) ⟨TypePing, 0, []⟩).action =
      RelayDispatch.unexpected :=
  ⟨(relay_dispatch_ping (fun _ => true) ⟨TypePing, 0, []⟩).1,
    (relay_dispatch_ping (fun _ => true) ⟨TypePing, 0, []⟩).2 rfl⟩

/-- Counterexample for C4 as stated: dispatching a PING writes no
frames at all — in particular not a PONG on stream 0 — and the frame is
classified unexpected. -/
theorem relay_dispatch_ping_counterexample :
    _relay_dispatch (fun _ => false) ⟨TypePing, 0, []⟩ =
      ⟨[], RelayDispatch.unexpected⟩ ∧
    (_relay_dispatch (fun _ => false) ⟨TypePing, 0, []⟩).writes ≠
      [⟨TypePong, 0, []⟩] := by
  constructor <;> decide

end Rprt
